import Mathlib

/-!
Verification of the line-oriented C++ lint checkers of this repository
(`ci/lint_cpp/*.py`): the bare-using checker, the bare-allocation checker,
the std-namespace checker and the ctype/cstring global checker.

Each Python checker is shallowly embedded: a line is a `List Char`, each
checker's per-line body becomes a `step : State → Line → State × List Msg`
function that mirrors the Python control flow statement by statement, and
the scan over a file is a shared fold `scanGen` that numbers lines from 1
and concatenates the per-line violation messages, exactly like the
`for line_number, line in enumerate(lines, 1)` loops in the source.
The regular expressions used by the checkers are small and backtracking-free
on their alphabets; each is transcribed as a recursive recognizer whose doc
comment quotes the original pattern.
-/

/-- One source line, as the Python checkers see it (no trailing newline:
the harness passes `content.splitlines()`). -/
abbrev Line := List Char

/-- Violation messages are also plain character strings. -/
abbrev Msg := List Char

/-- Convenience: the character list of a string literal. -/
def chars (s : String) : Line := s.data

/-- Python `\s` / `str.strip()` whitespace, restricted to ASCII
(the checker inputs are source code). -/
def isWsChar (c : Char) : Bool :=
  c == ' ' || c == '\t' || c == '\n' || c == '\r' || c == '\x0b' || c == '\x0c'

/-- Python `\w` word characters, restricted to ASCII. -/
def isWordChar (c : Char) : Bool :=
  (c ≥ 'a' && c ≤ 'z') || (c ≥ 'A' && c ≤ 'Z') || (c ≥ '0' && c ≤ '9') || c == '_'

/-- Python `str.strip()`: drop whitespace from both ends. -/
def pyStrip (s : Line) : Line :=
  ((s.dropWhile isWsChar).reverse.dropWhile isWsChar).reverse

/-- Python `str.rstrip()`: drop whitespace from the right end. -/
def pyRstrip (s : Line) : Line :=
  (s.reverse.dropWhile isWsChar).reverse

/-- Python `pat in s`: substring containment. -/
def containsSub (s pat : Line) : Bool :=
  if pat.isPrefixOf s then true
  else
    match s with
    | [] => false
    | _ :: t => containsSub t pat

/-- Python `s.index(pat)`: index of the first occurrence of `pat` in `s`
(only used where containment was already checked; returns `s.length` when
absent). -/
def idxOfSub (s pat : Line) : Nat :=
  if pat.isPrefixOf s then 0
  else
    match s with
    | [] => 0
    | _ :: t => idxOfSub t pat + 1

/-- Python `s.split(pat)[0]`: the prefix of `s` before the first occurrence
of `pat` (all of `s` when `pat` does not occur). -/
def takeBeforeSub (s pat : Line) : Line :=
  if pat.isPrefixOf s then []
  else
    match s with
    | [] => []
    | c :: t => c :: takeBeforeSub t pat

/-- Python tuple `str.endswith`: does `s` end with `pat`? -/
def endsWithSub (s pat : Line) : Bool :=
  pat.isPrefixOf (s.drop (s.length - pat.length)) && decide (pat.length ≤ s.length)

section ScanGen

variable {σ : Type}

/-- The shared file-scan loop of every checker:
`for line_number, line in enumerate(lines, 1): ...`, where the loop body is
`step` and each produced message is paired with its 1-based line number. -/
def scanGen (step : σ → Line → σ × List Msg) : σ → Nat → List Line → List (Nat × Msg)
  | _, _, [] => []
  | st, n, l :: ls =>
    ((step st l).2.map fun m => (n, m)) ++ scanGen step (step st l).1 (n + 1) ls

/-- The scan state after processing a list of lines. -/
def stateAfter (step : σ → Line → σ × List Msg) (st : σ) (ls : List Line) : σ :=
  ls.foldl (fun s l => (step s l).1) st

theorem stateAfter_nil (step : σ → Line → σ × List Msg) (st : σ) :
    stateAfter step st [] = st := rfl

theorem stateAfter_cons (step : σ → Line → σ × List Msg) (st : σ) (l : Line) (ls : List Line) :
    stateAfter step st (l :: ls) = stateAfter step (step st l).1 ls := rfl

theorem stateAfter_append (step : σ → Line → σ × List Msg) (st : σ) (xs ys : List Line) :
    stateAfter step st (xs ++ ys) = stateAfter step (stateAfter step st xs) ys := by
  induction xs generalizing st with
  | nil => rfl
  | cons x t ih => simp [stateAfter_cons, ih]

theorem scanGen_append (step : σ → Line → σ × List Msg) (st : σ) (n : Nat)
    (xs ys : List Line) :
    scanGen step st n (xs ++ ys) =
      scanGen step st n xs ++ scanGen step (stateAfter step st xs) (n + xs.length) ys := by
  induction xs generalizing st n with
  | nil => simp [scanGen, stateAfter_nil]
  | cons x t ih =>
    have h2 : n + 1 + t.length = n + (t.length + 1) := by omega
    simp only [List.cons_append, scanGen, stateAfter_cons, List.append_eq, ih,
      List.append_assoc, List.length_cons, h2]

theorem scanGen_fst_bounds (step : σ → Line → σ × List Msg) (st : σ) (n : Nat)
    (ls : List Line) : ∀ v ∈ scanGen step st n ls, n ≤ v.1 ∧ v.1 < n + ls.length := by
  induction ls generalizing st n with
  | nil => intro v hv; simp [scanGen] at hv
  | cons l t ih =>
    intro v hv
    simp only [scanGen, List.mem_append, List.mem_map] at hv
    rcases hv with ⟨m, _, rfl⟩ | hv
    · constructor
      · simp
      · simp only [List.length_cons]; omega
    · have := ih (step st l).1 (n + 1) v hv
      simp only [List.length_cons]
      omega

/-- If every line of `ls` emits no message from any state, the scan of `ls`
is empty. -/
theorem scanGen_eq_nil (step : σ → Line → σ × List Msg) (st : σ) (n : Nat)
    (ls : List Line) (h : ∀ l ∈ ls, ∀ s, (step s l).2 = []) :
    scanGen step st n ls = [] := by
  induction ls generalizing st n with
  | nil => rfl
  | cons l t ih =>
    simp only [scanGen, h l (by simp)]
    exact ih (step st l).1 (n + 1) (fun l' hl' => h l' (by simp [hl']))

/-- If each line emits at most one message, line numbers in the scan are
strictly increasing. -/
theorem scanGen_pairwise_lt (step : σ → Line → σ × List Msg)
    (h : ∀ s l, ((step s l).2).length ≤ 1) (st : σ) (n : Nat) (ls : List Line) :
    (scanGen step st n ls).Pairwise (fun a b => a.1 < b.1) := by
  induction ls generalizing st n with
  | nil => simp [scanGen]
  | cons l t ih =>
    simp only [scanGen]
    refine List.pairwise_append.mpr ⟨?_, ih _ _, ?_⟩
    · rcases hlen : (step st l).2 with _ | ⟨m, rest⟩
      · simp
      · have := h st l
        rw [hlen] at this
        simp only [List.length_cons] at this
        have : rest = [] := List.length_eq_zero.mp (by omega)
        subst this
        simp
    · intro a ha b hb
      rcases List.mem_map.mp ha with ⟨m, _, rfl⟩
      have := scanGen_fst_bounds step (step st l).1 (n + 1) t b hb
      simp
      omega

/-- A strictly increasing list of line numbers has at most one entry per
line number. -/
theorem pairwise_filter_len_le_one (l : List (Nat × Msg))
    (h : l.Pairwise (fun a b => a.1 < b.1)) (n : Nat) :
    (l.filter fun v => decide (v.1 = n)).length ≤ 1 := by
  induction l with
  | nil => simp
  | cons a t ih =>
    have ht := ih (List.Pairwise.of_cons h)
    by_cases ha : a.1 = n
    · have : ∀ b ∈ t, b.1 ≠ n := by
        intro b hb
        have := (List.pairwise_cons.mp h).1 b hb
        omega
      have : t.filter (fun v => decide (v.1 = n)) = [] := by
        apply List.filter_eq_nil_iff.mpr
        intro b hb
        simpa using this b hb
      simp [List.filter, ha, this]
    · simp only [List.filter, decide_eq_true_eq]
      simp [ha, ht]

end ScanGen

/-! ## The bare-using checker (`ci/lint_cpp/bare_using_checker.py`) -/

namespace BareUsing

/-- Scope kinds pushed on the checker's `scope_stack`: the Python strings
`'namespace'` and `'local'`. -/
inductive ScopeKind where
  | ns
  | loc
  deriving DecidableEq, Repr

/-- The per-file scan state of `BareUsingChecker.check_file_content`:
`in_block_comment` and `scope_stack`.  The Python list is used as a stack
via `append`/`pop`; we keep the same element order (top is the last
element), popping with `dropLast`. -/
structure St where
  inBlockComment : Bool
  scopeStack : List ScopeKind
  deriving DecidableEq, Repr

/-- Pop `n` elements off the end of the stack; a pop on an empty stack is a
no-op (`if scope_stack: scope_stack.pop()`). -/
def popN : Nat → List ScopeKind → List ScopeKind
  | 0, s => s
  | n + 1, s =>
    match s with
    | [] => []
    | _ :: _ => popN n s.dropLast

/-- Recognizer for `_RE_PREPROCESSOR = ^\s*#` (used with `.match`). -/
def matchPreproc (s : Line) : Bool :=
  match s.dropWhile isWsChar with
  | '#' :: _ => true
  | _ => false

/-- Recognizer for `_RE_ANON_NAMESPACE = ^\s*namespace\s*\{`. -/
def matchAnonNs (s : Line) : Bool :=
  let t := s.dropWhile isWsChar
  if (chars "namespace").isPrefixOf t then
    match (t.drop 9).dropWhile isWsChar with
    | '{' :: _ => true
    | _ => false
  else false

/-- Recognizer for `_RE_NAMED_NAMESPACE = ^\s*namespace\s+\w+`. -/
def matchNamedNs (s : Line) : Bool :=
  let t := s.dropWhile isWsChar
  if (chars "namespace").isPrefixOf t then
    match t.drop 9 with
    | c :: r => isWsChar c && (match r.dropWhile isWsChar with
        | d :: _ => isWordChar d
        | [] => false)
    | [] => false
  else false

/-- Recognizer for `_RE_EXTERN_C = ^\s*extern\s+"C"`. -/
def matchExternC (s : Line) : Bool :=
  let t := s.dropWhile isWsChar
  if (chars "extern").isPrefixOf t then
    match t.drop 6 with
    | c :: r => isWsChar c && (chars "\"C\"").isPrefixOf (r.dropWhile isWsChar)
    | [] => false
  else false

/-- Word-boundary test after a keyword: the next character must not be a
word character (or the line ends). -/
def boundaryAt (s : Line) : Bool :=
  match s with
  | [] => true
  | c :: _ => !isWordChar c

/-- Recognizer for `_RE_LOCAL_SCOPE_KEYWORD = ^\s*(?:class|struct|enum|union)\b`. -/
def matchLocalKw (s : Line) : Bool :=
  let t := s.dropWhile isWsChar
  (((chars "class").isPrefixOf t && boundaryAt (t.drop 5)) ||
   ((chars "struct").isPrefixOf t && boundaryAt (t.drop 6)) ||
   ((chars "enum").isPrefixOf t && boundaryAt (t.drop 4)) ||
   ((chars "union").isPrefixOf t && boundaryAt (t.drop 5)))

/-- Body scanner for the string-literal regex `"[^"\\]*(?:\\.[^"\\]*)*"`:
consume characters (a backslash escapes the next character) up to the
closing unescaped quote, returning the remainder after it, or `none` when
the literal is unterminated (the regex then does not match). -/
def scanDqBody : Line → Option Line
  | [] => none
  | '"' :: r => some r
  | '\\' :: [] => none
  | '\\' :: _ :: r => scanDqBody r
  | _ :: r => scanDqBody r

/-- Fuel-indexed worker for `stripDq`; every recursive call is on a
strictly shorter list, so fuel `s.length + 1` never runs out. -/
def stripDqF : Nat → Line → Line
  | 0, s => s
  | _, [] => []
  | fuel + 1, '"' :: rest =>
    match scanDqBody rest with
    | some r => '"' :: '"' :: stripDqF fuel r
    | none => '"' :: stripDqF fuel rest
  | fuel + 1, c :: rest => c :: stripDqF fuel rest

/-- `re.sub(r'"[^"\\]*(?:\\.[^"\\]*)*"', '""', line)`: replace every
complete double-quoted literal by `""`, scanning left to right. -/
def stripDq (s : Line) : Line := stripDqF (s.length + 1) s

/-- `_strip_strings_and_comments`: strip double-quoted string literals,
then cut at the first `//` of the result. -/
def stripStringsAndComments (line : Line) : Line :=
  takeBeforeSub (stripDq line) (chars "//")

/-- Consume `(?:::\w+)*` greedily (deterministic: `::` and word characters
are disjoint). -/
def chompPath (fuel : Nat) (s : Line) : Line :=
  match fuel with
  | 0 => s
  | fuel + 1 =>
    match s with
    | ':' :: ':' :: c :: r =>
      if isWordChar c then chompPath fuel (r.dropWhile isWordChar)
      else ':' :: ':' :: c :: r
    | _ => s

/-- Tail check `\s*;` (no end anchor: trailing text is allowed). -/
def wsSemi (s : Line) : Bool :=
  match s.dropWhile isWsChar with
  | ';' :: _ => true
  | _ => false

/-- Recognizer for
`_RE_USING_DECL = ^\s*using\s+(?!.*\s*=)(?:namespace\s+\w+(?:::\w+)*|\w+(?:::\w+)+)\s*;`
(used with `.search`, but anchored by `^`, so it can only match at the
start).  The negative lookahead fails exactly when a `=` occurs anywhere
in the remainder after `using\s+`. -/
def matchUsingDecl (s : Line) : Bool :=
  let t := s.dropWhile isWsChar
  if (chars "using").isPrefixOf t then
    match t.drop 5 with
    | c :: r =>
      if isWsChar c then
        let rest := r.dropWhile isWsChar
        if rest.contains '=' then false
        else
          -- branch 1: namespace\s+\w+(?:::\w+)*
          (if (chars "namespace").isPrefixOf rest then
            match rest.drop 9 with
            | d :: r2 =>
              if isWsChar d then
                match r2.dropWhile isWsChar with
                | e :: r3 =>
                  isWordChar e &&
                    wsSemi (chompPath s.length (r3.dropWhile isWordChar))
                | [] => false
              else false
            | [] => false
          else false) ||
          -- branch 2: \w+(?:::\w+)+  (at least one ::)
          (match rest with
          | e :: r3 =>
            if isWordChar e then
              match (r3.dropWhile isWordChar) with
              | ':' :: ':' :: f :: r4 =>
                isWordChar f &&
                  wsSemi (chompPath s.length (r4.dropWhile isWordChar))
              | _ => false
            else false
          | [] => false)
      else false
    | [] => false
  else false

/-- One step of the case-insensitive suppression pattern
`_RE_SUPPRESS = //\s*ok(?:ay)?\s+bare\s+using` tried at the head of `s`. -/
def matchSuppressAt (s : Line) : Bool :=
  match s with
  | '/' :: '/' :: r =>
    let r1 := r.dropWhile isWsChar
    match r1.map Char.toLower with
    | 'o' :: 'k' :: r2 =>
      -- optionally consume "ay"; the fallback without it cannot succeed
      -- when "ay" is present ('a' is not whitespace), so this is exact.
      let r3 := match r2 with
        | 'a' :: 'y' :: r3 => r3
        | _ => r2
      match r3 with
      | c :: r4 =>
        isWsChar c &&
          ((chars "bare").isPrefixOf (r4.dropWhile isWsChar) &&
            (match (r4.dropWhile isWsChar).drop 4 with
            | d :: r5 => isWsChar d && (chars "using").isPrefixOf (r5.dropWhile isWsChar)
            | [] => false))
      | [] => false
    | _ => false
  | _ => false

/-- `_RE_SUPPRESS.search(line)`: try the suppression pattern at every
position. -/
def searchSuppress (s : Line) : Bool :=
  matchSuppressAt s ||
    match s with
    | [] => false
    | _ :: t => searchSuppress t

/-- The scope kinds pushed for the opening braces of a line
(`scope_types_to_push`): the first brace takes the kind of the recognized
opener, every further brace is `'local'`. -/
def scopePushes (clean : Line) (opens : Nat) : List ScopeKind :=
  if opens = 0 then []
  else
    if matchAnonNs clean then ScopeKind.loc :: List.replicate (opens - 1) ScopeKind.loc
    else if matchNamedNs clean then ScopeKind.ns :: List.replicate (opens - 1) ScopeKind.loc
    else if matchExternC clean then ScopeKind.ns :: List.replicate (opens - 1) ScopeKind.loc
    else if matchLocalKw clean then ScopeKind.loc :: List.replicate (opens - 1) ScopeKind.loc
    else List.replicate opens ScopeKind.loc

/-- The loop body of `BareUsingChecker.check_file_content`, one line. -/
def step (st : St) (line : Line) : St × List Msg :=
  if st.inBlockComment then
    ({ st with inBlockComment := !containsSub line (chars "*/") }, [])
  else
    let lineBefore := takeBeforeSub line (chars "//")
    if containsSub lineBefore (chars "/*") then
      let rest := line.drop (idxOfSub lineBefore (chars "/*") + 2)
      if containsSub rest (chars "*/") then (st, [])
      else ({ st with inBlockComment := true }, [])
    else if matchPreproc line then (st, [])
    else
      let clean := stripStringsAndComments line
      let opens := clean.count '{'
      let closes := clean.count '}'
      let stack1 := st.scopeStack ++ scopePushes clean opens
      let stack2 := popN closes stack1
      let st' : St := { st with scopeStack := stack2 }
      if matchUsingDecl clean then
        if searchSuppress line then (st', [])
        else if stack2.all fun k => k == ScopeKind.ns then (st', [pyStrip line])
        else (st', [])
      else (st', [])

/-- The initial scan state (fresh per file). -/
def initSt : St := ⟨false, []⟩

/-- `check_file_content` as a pure scan: the per-file violation list. -/
def scan (lines : List Line) : List (Nat × Msg) :=
  scanGen step initSt 1 lines

end BareUsing

/-- Try a test at every suffix of the line (Python `re.search` for patterns
without lookbehind). -/
def searchSub (test : Line → Bool) : Line → Bool
  | [] => test []
  | c :: t => test (c :: t) || searchSub test t

/-- Try a test at every suffix, tracking the previous character (for `\b`
and one-character lookbehind). -/
def searchPrev1 (test : Option Char → Line → Bool) : Option Char → Line → Bool
  | prev, [] => test prev []
  | prev, c :: t => test prev (c :: t) || searchPrev1 test (some c) t

/-- Try a test at every suffix, tracking the previous two characters (for
two-character lookbehinds such as `(?<!::)`). -/
def searchPrev2 (test : Option Char → Option Char → Line → Bool) :
    Option Char → Option Char → Line → Bool
  | p2, p1, [] => test p2 p1 []
  | p2, p1, c :: t => test p2 p1 (c :: t) || searchPrev2 test p1 (some c) t

/-- Leftmost-match variant of `searchPrev2` returning a payload. -/
def findPrev2 {α : Type} (test : Option Char → Option Char → Line → Option α) :
    Option Char → Option Char → Line → Option α
  | p2, p1, [] => test p2 p1 []
  | p2, p1, c :: t =>
    match test p2 p1 (c :: t) with
    | some x => some x
    | none => findPrev2 test p1 (some c) t

/-- Word-boundary/lookbehind helper: no previous character, or the previous
character is not a word character. -/
def prevNonWord : Option Char → Bool
  | none => true
  | some c => !isWordChar c

/-! ## The bare-allocation checker (`ci/lint_cpp/bare_allocation_checker.py`) -/

namespace BareAlloc

/-- Body scanner shared by both branches of `_STRING_LITERAL_RE =
"(?:[^"\\]|\\.)*" | '(?:[^'\\]|\\.)*'`: consume up to the closing
unescaped quote `q`. -/
def scanLitBody (q : Char) : Line → Option Line
  | [] => none
  | '\\' :: [] => none
  | '\\' :: _ :: r => scanLitBody q r
  | c :: r => if c == q then some r else scanLitBody q r

/-- Fuel-indexed worker for `stripLits` (every call shortens the list). -/
def stripLitsF : Nat → Line → Line
  | 0, s => s
  | _, [] => []
  | fuel + 1, c :: rest =>
    if c == '"' then
      match scanLitBody '"' rest with
      | some r => '"' :: '"' :: stripLitsF fuel r
      | none => c :: stripLitsF fuel rest
    else if c == '\'' then
      match scanLitBody '\'' rest with
      | some r => '"' :: '"' :: stripLitsF fuel r
      | none => c :: stripLitsF fuel rest
    else c :: stripLitsF fuel rest

/-- `_STRING_LITERAL_RE.sub('""', code_part)`: both string and character
literals are replaced by `""`. -/
def stripLits (s : Line) : Line := stripLitsF (s.length + 1) s

/-- Character class `[A-Za-z_\:]` of `_NEW_ALLOC_RE`. -/
def isNewTypeStart (c : Char) : Bool :=
  (c ≥ 'a' && c ≤ 'z') || (c ≥ 'A' && c ≤ 'Z') || c == '_' || c == ':'

/-- Recognizer for `_NEW_ALLOC_RE = \bnew\s+[A-Za-z_\:]` (search). -/
def searchNewAlloc (s : Line) : Bool :=
  searchPrev1
    (fun prev t =>
      prevNonWord prev && (chars "new").isPrefixOf t &&
        (match t.drop 3 with
        | c :: r =>
          isWsChar c &&
            (match r.dropWhile isWsChar with
            | d :: _ => isNewTypeStart d
            | [] => false)
        | [] => false))
    none s

/-- Recognizer for `_DELETE_RE = \bdelete\b` (search). -/
def searchDeleteKw (s : Line) : Bool :=
  searchPrev1
    (fun prev t =>
      prevNonWord prev && (chars "delete").isPrefixOf t &&
        BareUsing.boundaryAt (t.drop 6))
    none s

/-- Tail check `\s*\(` shared by the call patterns. -/
def wsParen (s : Line) : Bool :=
  match s.dropWhile isWsChar with
  | '(' :: _ => true
  | _ => false

/-- Recognizer for
`_MALLOC_FAMILY_RE = (?<!::)(?<!\.)\b(malloc|calloc|realloc)\s*\(`,
returning the captured function name of the leftmost match. -/
def searchMallocFamily (s : Line) : Option Line :=
  findPrev2
    (fun p2 p1 t =>
      if (p2 == some ':' && p1 == some ':') || p1 == some '.' || !prevNonWord p1 then
        none
      else if (chars "malloc").isPrefixOf t && wsParen (t.drop 6) then some (chars "malloc")
      else if (chars "calloc").isPrefixOf t && wsParen (t.drop 6) then some (chars "calloc")
      else if (chars "realloc").isPrefixOf t && wsParen (t.drop 7) then some (chars "realloc")
      else none)
    none none s

/-- Recognizer for `_FREE_RE = (?<!::)(?<!\.)\bfree\s*\(` (search). -/
def searchFree (s : Line) : Bool :=
  searchPrev2
    (fun p2 p1 t =>
      !((p2 == some ':' && p1 == some ':') || p1 == some '.' || !prevNonWord p1) &&
        (chars "free").isPrefixOf t && wsParen (t.drop 4))
    none none s

/-- Recognizer for `=\s*delete\s*[;{]` (search). -/
def searchEqDeleteSemi (s : Line) : Bool :=
  searchSub
    (fun t =>
      match t with
      | '=' :: r =>
        let r1 := r.dropWhile isWsChar
        (chars "delete").isPrefixOf r1 &&
          (match (r1.drop 6).dropWhile isWsChar with
          | c :: _ => c == ';' || c == '{'
          | [] => false)
      | _ => false)
    s

/-- Recognizer for `=\s*delete\s*$` (search; applied to the rstripped code
part). -/
def searchEqDeleteEol (s : Line) : Bool :=
  searchSub
    (fun t =>
      match t with
      | '=' :: r =>
        let r1 := r.dropWhile isWsChar
        (chars "delete").isPrefixOf r1 && (r1.drop 6).dropWhile isWsChar == []
      | _ => false)
    s

def suggestionNew : Msg := chars
  "Use fl::make_unique<T>() or fl::make_shared<T>() instead of bare 'new', or add '// ok bare allocation' to suppress"

def suggestionDelete : Msg := chars
  "Use fl::unique_ptr or fl::shared_ptr (automatic cleanup) instead of bare 'delete', or add '// ok bare allocation' to suppress"

def suggestionMalloc : Msg := chars
  "Use fl::make_unique<T>() or fl::make_shared<T>() instead, or fl::malloc() if raw memory is required, or add '// ok bare allocation' to suppress"

def suggestionFree : Msg := chars
  "Use fl::unique_ptr or fl::shared_ptr (automatic cleanup) instead, or fl::free() if raw memory is required, or add '// ok bare allocation' to suppress"

/-- The `_SUPPRESSION_OK` marker string. -/
def okMarker : Line := chars "// ok bare allocation"

/-- The `_SUPPRESSION_OKAY` marker string. -/
def okayMarker : Line := chars "// okay bare allocation"

/-- The loop body of `BareAllocationChecker.check_file_content`, one line.
The state is the `in_multiline_comment` flag. -/
def step (inC : Bool) (line : Line) : Bool × List Msg :=
  let stripped := pyStrip line
  let c1 := containsSub line (chars "/*") || inC
  if containsSub line (chars "*/") then (false, [])
  else if c1 then (true, [])
  else if (chars "//").isPrefixOf stripped then (false, [])
  else if containsSub line okMarker || containsSub line okayMarker then (false, [])
  else
    let cp := stripLits (takeBeforeSub line (chars "//"))
    if containsSub cp (chars "operator new") || containsSub cp (chars "operator delete") then
      (false, [])
    else if searchEqDeleteSemi cp then (false, [])
    else if searchEqDeleteEol (pyRstrip cp) then (false, [])
    else if searchNewAlloc cp then
      (false, [chars "bare 'new': " ++ stripped ++ chars " — " ++ suggestionNew])
    else if searchDeleteKw cp then
      (false, [chars "bare 'delete': " ++ stripped ++ chars " — " ++ suggestionDelete])
    else
      match searchMallocFamily cp with
      | some f => (false, [chars "bare '" ++ f ++ chars "': " ++ stripped ++ chars " — " ++ suggestionMalloc])
      | none =>
        if searchFree cp then
          (false, [chars "bare 'free': " ++ stripped ++ chars " — " ++ suggestionFree])
        else (false, [])

/-- `check_file_content` as a pure scan: the per-file violation list. -/
def scan (lines : List Line) : List (Nat × Msg) :=
  scanGen step false 1 lines

end BareAlloc

/-! ## The std-namespace checker (`ci/lint_cpp/std_namespace_checker.py`) -/

namespace StdNs

/-- `ALLOWED_STD_SYMBOLS` (a Python set; only membership is used). -/
def allowedStdSymbols : List Line :=
  [chars "std::atomic_thread_fence",
   chars "std::memory_order_acquire",
   chars "std::memory_order_release",
   chars "std::memory_order_seq_cst",
   chars "std::memory_order_relaxed",
   chars "std::memory_order_acq_rel",
   chars "std::memory_order_consume"]

/-- Fuel-indexed `re.findall(r"std::\w+", code_part)`: scan left to right,
collecting each `std::` followed by one or more word characters,
continuing after each match (every recursive call shortens the list). -/
def stdFindallF : Nat → Line → List Line
  | 0, _ => []
  | _, [] => []
  | fuel + 1, s@(_ :: t) =>
    if (chars "std::").isPrefixOf s then
      let w := (s.drop 5).takeWhile isWordChar
      if w.isEmpty then stdFindallF fuel t
      else (chars "std::" ++ w) :: stdFindallF fuel ((s.drop 5).dropWhile isWordChar)
    else stdFindallF fuel t

/-- `re.findall(r"std::\w+", code_part)`. -/
def stdFindall (s : Line) : List Line := stdFindallF (s.length + 1) s

/-- `_has_allowed_std_symbol(line)`. -/
def hasAllowedStdSymbol (line : Line) : Bool :=
  let cp := takeBeforeSub line (chars "//")
  if !containsSub cp (chars "std::") then true
  else (stdFindall cp).all fun u => allowedStdSymbols.contains u

/-- The loop body of `StdNamespaceChecker.check_file_content`, one line.
The state is the `in_multiline_comment` flag. -/
def step (inC : Bool) (line : Line) : Bool × List Msg :=
  let stripped := pyStrip line
  let c1 := containsSub line (chars "/*") || inC
  if containsSub line (chars "*/") then (false, [])
  else if c1 then (true, [])
  else if (chars "//").isPrefixOf stripped then (false, [])
  else
    let cp := takeBeforeSub line (chars "//")
    if containsSub cp (chars "std::") then
      if containsSub line (chars "// okay std namespace") then (false, [])
      else if hasAllowedStdSymbol line then (false, [])
      else (false, [stripped])
    else (false, [])

/-- `check_file_content` as a pure scan: the per-file violation list. -/
def scan (lines : List Line) : List (Nat × Msg) :=
  scanGen step false 1 lines

end StdNs

/-! ## The ctype/cstring global checker (`ci/lint_cpp/ctype_global_checker.py`) -/

namespace Ctype

/-- `CTYPE_FUNCTIONS`. -/
def ctypeFunctions : List Line :=
  [chars "isspace", chars "isdigit", chars "isalpha", chars "isalnum",
   chars "isupper", chars "islower", chars "tolower", chars "toupper"]

/-- `CSTRING_FUNCTIONS`. -/
def cstringFunctions : List Line :=
  [chars "strlen", chars "strcmp", chars "strncmp", chars "strcpy",
   chars "strncpy", chars "strcat", chars "strncat", chars "strstr",
   chars "strchr", chars "strrchr", chars "strspn", chars "strcspn",
   chars "strpbrk", chars "strtok", chars "strerror",
   chars "memcpy", chars "memcmp", chars "memmove", chars "memset",
   chars "memchr"]

/-- `_ALL_FUNCTIONS = CTYPE_FUNCTIONS + CSTRING_FUNCTIONS`. -/
def allFunctions : List Line := ctypeFunctions ++ cstringFunctions

/-- Try one alternation branch `name\s*\(` at the head of `s`; on success
return the remainder after the consumed `(` (the end of the regex match).
No listed name is a prefix of another, so at most one branch can match at
a position and the alternation is deterministic. -/
def tryName (name : Line) (s : Line) : Option Line :=
  if name.isPrefixOf s then
    match (s.drop name.length).dropWhile isWsChar with
    | '(' :: r => some r
    | _ => none
  else none

/-- First alternation branch of `names` that matches at the head of `s`. -/
def tryAnyName (names : List Line) (s : Line) : Option (Line × Line) :=
  match names with
  | [] => none
  | n :: rest =>
    match tryName n s with
    | some r => some (n, r)
    | none => tryAnyName rest s

/-- Fuel-indexed `findall` for `(?<!\w)(?::{2})?\b(n₁|…|nₖ)\s*\(`: at each
position the previous character must not be a word character, an optional
`::` may be consumed, then a name and `\s*\(`; matches are non-overlapping,
scanning resumes after the consumed `(`.  Every recursive call shortens the
list, so fuel `s.length + 1` never runs out. -/
def findBareF (names : List Line) : Nat → Option Char → Line → List Line
  | 0, _, _ => []
  | _, _, [] => []
  | fuel + 1, prev, c :: t =>
    if prevNonWord prev then
      match
        (if (chars "::").isPrefixOf (c :: t) then tryAnyName names (t.drop 1)
         else tryAnyName names (c :: t)) with
      | some (name, rest) => name :: findBareF names fuel (some '(') rest
      | none => findBareF names fuel (some c) t
    else findBareF names fuel (some c) t

/-- `_PATTERN.findall(code_part)` (and, for a single name, the per-function
`bare_pattern.findall`). -/
def findBare (names : List Line) (s : Line) : List Line :=
  findBareF names (s.length + 1) none s

/-- Fuel-indexed `findall` for `\bfl::(n₁|…|nₖ)\s*\(`. -/
def findFlF (names : List Line) : Nat → Option Char → Line → List Line
  | 0, _, _ => []
  | _, _, [] => []
  | fuel + 1, prev, c :: t =>
    if prevNonWord prev && (chars "fl::").isPrefixOf (c :: t) then
      match tryAnyName names (t.drop 3) with
      | some (name, rest) => name :: findFlF names fuel (some '(') rest
      | none => findFlF names fuel (some c) t
    else findFlF names fuel (some c) t

/-- `_FL_PATTERN.findall(code_part)` (and the per-function
`fl_specific.findall`). -/
def findFl (names : List Line) (s : Line) : List Line :=
  findFlF names (s.length + 1) none s

/-- Recognizer for `re.search(r"\bnamespace\s+fl\s*\{", code_part)`. -/
def searchNamespaceFl (s : Line) : Bool :=
  searchPrev1
    (fun prev t =>
      prevNonWord prev && (chars "namespace").isPrefixOf t &&
        (match t.drop 9 with
        | c :: r =>
          isWsChar c &&
            ((chars "fl").isPrefixOf (r.dropWhile isWsChar) &&
              (match ((r.dropWhile isWsChar).drop 2).dropWhile isWsChar with
              | '{' :: _ => true
              | _ => false))
        | [] => false))
    none s

/-- The `set(all_matches)` of the source, realized as first-occurrence
deduplication.  CPython's set iteration order is unspecified (string
hashing is randomized per process); no property proved below depends on
the order of the violations emitted for a single line. -/
def dedupFirstAux (seen : List Line) : List Line → List Line
  | [] => []
  | x :: t =>
    if seen.contains x then dedupFirstAux seen t
    else x :: dedupFirstAux (x :: seen) t

def dedupFirst (l : List Line) : List Line := dedupFirstAux [] l

/-- `_FUNC_HEADER.get(func, "fl/stl/cstring.h")`: ctype functions map to
`fl/stl/cctype.h`, cstring functions (and the default) to
`fl/stl/cstring.h`. -/
def headerOf (f : Line) : Line :=
  if ctypeFunctions.contains f then chars "fl/stl/cctype.h"
  else chars "fl/stl/cstring.h"

/-- The violation message
`f"Use fl::{func}() instead of {func}() or ::{func}() — see {header}: {stripped}"`. -/
def mkMsg (f stripped : Line) : Msg :=
  chars "Use fl::" ++ f ++ chars "() instead of " ++ f ++ chars "() or ::" ++ f ++
    chars "() — see " ++ headerOf f ++ chars ": " ++ stripped

/-- The per-file scan state of `CtypeGlobalChecker.check_file_content`:
`in_multiline_comment`, `fl_namespace_depth`, `brace_depth_at_fl_namespace`
(a Python list used as a stack; here the head is the top) and
`brace_depth`.  The two counters are Python ints, embedded as `Int` —
`brace_depth` in particular is decremented without clamping. -/
structure St where
  inC : Bool
  flDepth : Int
  snaps : List Int
  braceDepth : Int
  deriving DecidableEq, Repr

/-- One character of the brace-tracking loop
(`for ch in code_part: ...`), acting on
`(brace_depth, fl_namespace_depth, brace_depth_at_fl_namespace)`. -/
def braceChar (acc : Int × Int × List Int) (ch : Char) : Int × Int × List Int :=
  let (bd, fl, snaps) := acc
  if ch == '{' then (bd + 1, fl, snaps)
  else if ch == '}' then
    let bd' := bd - 1
    match snaps with
    | top :: rest => if bd' == top then (bd', fl - 1, rest) else (bd', fl, snaps)
    | [] => (bd', fl, snaps)
  else (bd, fl, snaps)

/-- The tail of the loop body, after the brace/namespace bookkeeping:
`if fl_namespace_depth > 0: continue` through the per-function violation
loop, returning the messages emitted for the line. -/
def emitForLine (st' : St) (line cp stripped : Line) : List Msg :=
  if st'.flDepth > 0 then []
  else if containsSub line (chars "// ok ctype") ||
      containsSub line (chars "// okay ctype") then []
  else
    let allM := findBare allFunctions cp
    if allM.isEmpty then []
    else
      let flM := findFl allFunctions cp
      if (allM.length : Int) - (flM.length : Int) > 0 then
        (dedupFirst allM).filterMap fun f =>
          if (findBare [f] cp).length > (findFl [f] cp).length then
            some (mkMsg f stripped)
          else none
      else []

/-- The loop body of `CtypeGlobalChecker.check_file_content`, one line. -/
def step (st : St) (line : Line) : St × List Msg :=
  let stripped := pyStrip line
  let c1 := containsSub line (chars "/*") || st.inC
  if containsSub line (chars "*/") then ({ st with inC := false }, [])
  else if c1 then ({ st with inC := true }, [])
  else if (chars "//").isPrefixOf stripped then (st, [])
  else
    let cp := takeBeforeSub line (chars "//")
    let fl0 := if searchNamespaceFl cp then st.flDepth + 1 else st.flDepth
    let snaps0 := if searchNamespaceFl cp then st.braceDepth :: st.snaps else st.snaps
    let r := cp.foldl braceChar (st.braceDepth, fl0, snaps0)
    let st' : St := ⟨false, r.2.1, r.2.2, r.1⟩
    (st', emitForLine st' line cp stripped)

/-- The initial scan state (fresh per file). -/
def initSt : St := ⟨false, 0, [], 0⟩

/-- `check_file_content` as a pure scan: the per-file violation list. -/
def scan (lines : List Line) : List (Nat × Msg) :=
  scanGen step initSt 1 lines

/-- The scan state after a list of lines (used to speak about the brace
depth and the `namespace fl` depth at a given point of the file). -/
def stAfter (lines : List Line) : St := stateAfter step initSt lines

end Ctype

/-! ## File contents and the per-checker violation mapping

Each checker instance owns `self.violations: dict[str, list[tuple[int, str]]]`;
`check_file_content` stores the computed list under the file's path when it
is non-empty (`if violations: self.violations[file_content.path] = violations`).
The dict is embedded as an association list; assignment replaces in place
(Python dicts keep the original key position on re-assignment). -/

/-- The fields of `FileContent` used by these checkers. -/
structure FileContent where
  path : Line
  lines : List Line

/-- The violations mapping `dict[str, list[tuple[int, str]]]`. -/
abbrev VMap := List (Line × List (Nat × Msg))

/-- Dict lookup. -/
def lookupPath (p : Line) : VMap → Option (List (Nat × Msg))
  | [] => none
  | (q, vs) :: t => if q == p then some vs else lookupPath p t

/-- Dict assignment `m[p] = vs` (replaces in place, appends when absent). -/
def insertOrReplace (p : Line) (vs : List (Nat × Msg)) : VMap → VMap
  | [] => [(p, vs)]
  | (q, ws) :: t => if q == p then (p, vs) :: t else (q, ws) :: insertOrReplace p vs t

/-- `if violations: self.violations[path] = violations`. -/
def updateViolations (m : VMap) (p : Line) (vs : List (Nat × Msg)) : VMap :=
  if vs.isEmpty then m else insertOrReplace p vs m

namespace BareAlloc

/-- `BareAllocationChecker.check_file_content`, including its effect on the
instance's violations dict. -/
def check_file_content (m : VMap) (fc : FileContent) : VMap :=
  updateViolations m fc.path (scan fc.lines)

end BareAlloc

namespace StdNs

/-- `StdNamespaceChecker.check_file_content`, including its effect on the
instance's violations dict. -/
def check_file_content (m : VMap) (fc : FileContent) : VMap :=
  updateViolations m fc.path (scan fc.lines)

end StdNs

namespace BareUsing

/-- `BareUsingChecker.check_file_content`, including its effect on the
instance's violations dict. -/
def check_file_content (m : VMap) (fc : FileContent) : VMap :=
  updateViolations m fc.path (scan fc.lines)

/-- `file_path.replace("\\", "/")`. -/
def normalizePath (p : Line) : Line :=
  p.map fun c => if c == '\\' then '/' else c

/-- `Path(file_path).name`: the last `/`-separated component of the raw
path (POSIX `pathlib` semantics). -/
def basenameOf (p : Line) : Line :=
  p.foldl (fun acc c => if c == '/' then [] else acc ++ [c]) []

/-- `BareUsingChecker.should_process_file`. -/
def should_process_file (p : Line) : Bool :=
  let normalized := normalizePath p
  if !containsSub normalized (chars "/src/fl/") then false
  else if containsSub normalized (chars "/third_party/") then false
  else if basenameOf p == chars "FastLED.h" then false
  else
    endsWithSub normalized (chars ".h") || endsWithSub normalized (chars ".hpp") ||
      endsWithSub normalized (chars ".cpp.hpp")

/-- Modelled from the spec: the file-discovery harness (`ci.util.check_files`,
whose source is not among the sampled files) is specified to filter files
"before reaching the core via a path/extension predicate
(`shouldProcessFile`)"; a file rejected by `should_process_file` is never
handed to `check_file_content`, so it contributes nothing to the violations
dict. -/
def processFileIfAccepted (m : VMap) (fc : FileContent) : VMap :=
  if should_process_file fc.path then check_file_content m fc else m

end BareUsing

/-! ## Reference block-comment semantics

The claims about comment handling are judged against the actual C++ notion
of a `/* ... */` block comment.  `SpecComment.lineState` follows the spec's
words ("lines inside a correctly terminated `/* ... */` block"): outside a
comment, `//` comments out the rest of the line and `/*` opens a block;
inside a block, `*/` closes it.  This reference definition is deliberately
independent of the checkers' flag bookkeeping. -/

namespace SpecComment

/-- Carry the in-block-comment state across one line, reading characters
left to right. -/
def lineState : Bool → Line → Bool
  | true, '*' :: '/' :: r => lineState false r
  | true, _ :: r => lineState true r
  | true, [] => true
  | false, '/' :: '/' :: _ => false
  | false, '/' :: '*' :: r => lineState true r
  | false, _ :: r => lineState false r
  | false, [] => false

/-- The in-block-comment state after a list of lines, starting outside. -/
def stateAfterLines (lines : List Line) : Bool :=
  lines.foldl lineState false

end SpecComment

/-! ## Helper lemmas -/

namespace BareUsing

/-- Any branch of the bare-using step that emits a violation is guarded by
`is_namespace_scope = all(s == "namespace" for s in scope_stack)`, taken on
the stack as updated by this line. -/
theorem step_emit_all_ns (st : St) (line : Line) (h : (step st line).2 ≠ []) :
    ((step st line).1.scopeStack.all fun k => k == ScopeKind.ns) = true := by
  rcases hstep : step st line with ⟨st', msgs⟩
  rw [hstep] at h
  simp only [step] at hstep
  split_ifs at hstep <;> cases hstep <;> (try simp_all) <;> (try assumption)

end BareUsing


/-- Unfolding lemma for `containsSub` on a cons cell. -/
theorem containsSub_cons (c : Char) (t pat : Line) :
    containsSub (c :: t) pat = (pat.isPrefixOf (c :: t) || containsSub t pat) := by
  rw [containsSub.eq_def]
  split_ifs with h <;> simp [h]

/-- Unfolding lemma for `containsSub` on the empty line. -/
theorem containsSub_nil (pat : Line) : containsSub [] pat = pat.isPrefixOf [] := by
  rw [containsSub.eq_def]
  split_ifs with h <;> simp [h]

/-- A substring of the right part is a substring of the whole. -/
theorem containsSub_append_right (xs ys pat : Line) (h : containsSub ys pat = true) :
    containsSub (xs ++ ys) pat = true := by
  induction xs with
  | nil => simpa using h
  | cons c t ih =>
    rw [List.cons_append, containsSub_cons]
    simp [ih]

/-- Appending a suffix that neither contains a two-character pattern nor can
complete it across the boundary leaves containment unchanged. -/
theorem containsSub_append_two (l m : Line) (a b : Char)
    (hm : containsSub m [a, b] = false)
    (hhead : ∀ c, m.head? = some c → b ≠ c) :
    containsSub (l ++ m) [a, b] = containsSub l [a, b] := by
  induction l with
  | nil => simpa using hm
  | cons c t ih =>
    rw [List.cons_append, containsSub_cons, containsSub_cons]
    have hpre : [a, b].isPrefixOf (c :: (t ++ m)) = [a, b].isPrefixOf (c :: t) := by
      cases t with
      | nil =>
        simp only [List.nil_append, List.isPrefixOf, List.append_nil]
        cases m with
        | nil => simp [List.isPrefixOf]
        | cons d r =>
          have hbd : b ≠ d := hhead d rfl
          simp [List.isPrefixOf, beq_eq_false_iff_ne.mpr hbd]
      | cons x t' => simp [List.isPrefixOf]
    rw [hpre, ih]

namespace BareUsing

/-- Each line contributes at most one violation. -/
theorem step_len_le_one_using (st : St) (line : Line) : ((step st line).2).length ≤ 1 := by
  rcases hstep : step st line with ⟨st', msgs⟩
  simp only [step] at hstep
  split_ifs at hstep <;> cases hstep <;> simp

/-- A line whose cleaned code portion does not match `_RE_USING_DECL`
contributes no violation. -/
theorem step_no_match (st : St) (line : Line)
    (h : matchUsingDecl (stripStringsAndComments line) = false) :
    (step st line).2 = [] := by
  rcases hstep : step st line with ⟨st', msgs⟩
  simp only [step] at hstep
  split_ifs at hstep <;> cases hstep <;> simp_all

end BareUsing

namespace BareAlloc

set_option maxHeartbeats 1000000 in
/-- Each line contributes at most one violation. -/
theorem step_len_le_one_alloc (st : Bool) (line : Line) : ((step st line).2).length ≤ 1 := by
  simp only [step]
  generalize stripLits (takeBeforeSub line (chars "//")) = cp
  generalize pyStrip line = sp
  split_ifs <;> (try simp) <;> (split <;> simp)

set_option maxHeartbeats 1000000 in
/-- The presence of either suppression marker on a line silences it,
whatever the scan state. -/
theorem step_marker_silences_alloc (st : Bool) (line : Line)
    (h : containsSub line okMarker = true ∨ containsSub line okayMarker = true) :
    (step st line).2 = [] := by
  simp only [step]
  generalize stripLits (takeBeforeSub line (chars "//")) = cp
  generalize pyStrip line = sp
  split_ifs <;> (try simp) <;> (try simp_all) <;> (split <;> simp)

set_option maxHeartbeats 1000000 in
/-- The outgoing comment state of a line is a function of the line's
`/*` and `*/` containment and the incoming state only. -/
theorem step_fst_eq (st : Bool) (line : Line) :
    (step st line).1 =
      (if containsSub line (chars "*/") then false
       else containsSub line (chars "/*") || st) := by
  simp only [step]
  generalize stripLits (takeBeforeSub line (chars "//")) = cp
  generalize pyStrip line = sp
  split_ifs <;> (try simp_all) <;> (split <;> simp_all)

/-- While the in-block-comment flag is set, a line without `*/` is skipped
and the flag stays set. -/
theorem step_in_comment_alloc (line : Line) (h : containsSub line (chars "*/") = false) :
    step true line = (true, []) := by
  simp [step, h]

set_option maxHeartbeats 1000000 in
/-- A line on whose processed code portion none of the four allocation
patterns fires contributes no violation. -/
theorem step_no_pattern (st : Bool) (line : Line)
    (h1 : searchNewAlloc (stripLits (takeBeforeSub line (chars "//"))) = false)
    (h2 : searchDeleteKw (stripLits (takeBeforeSub line (chars "//"))) = false)
    (h3 : searchMallocFamily (stripLits (takeBeforeSub line (chars "//"))) = none)
    (h4 : searchFree (stripLits (takeBeforeSub line (chars "//"))) = false) :
    (step st line).2 = [] := by
  simp only [step]
  generalize hcp : stripLits (takeBeforeSub line (chars "//")) = cp
  rw [hcp] at h1 h2 h3 h4
  generalize pyStrip line = sp
  split_ifs <;> (try simp_all) <;> (rw [h3]; simp [h4])

end BareAlloc

namespace StdNs

set_option maxHeartbeats 1000000 in
/-- Each line contributes at most one violation. -/
theorem step_len_le_one_std (st : Bool) (line : Line) : ((step st line).2).length ≤ 1 := by
  simp only [step]
  generalize pyStrip line = sp
  generalize takeBeforeSub line (chars "//") = cp
  generalize hasAllowedStdSymbol line = al
  split_ifs <;> simp

set_option maxHeartbeats 1000000 in
/-- The presence of the `// okay std namespace` marker on a line silences
it, whatever the scan state. -/
theorem step_marker_silences_std (st : Bool) (line : Line)
    (h : containsSub line (chars "// okay std namespace") = true) :
    (step st line).2 = [] := by
  simp only [step]
  generalize pyStrip line = sp
  generalize takeBeforeSub line (chars "//") = cp
  generalize hasAllowedStdSymbol line = al
  split_ifs <;> simp_all

/-- While the in-block-comment flag is set, a line without `*/` is skipped
and the flag stays set. -/
theorem step_in_comment_std (line : Line) (h : containsSub line (chars "*/") = false) :
    step true line = (true, []) := by
  simp [step, h]

end StdNs

namespace Ctype

/-- Emission requires the `fl_namespace_depth > 0` guard to have failed. -/
theorem emitForLine_flDepth (st' : St) (line cp stripped : Line)
    (h : emitForLine st' line cp stripped ≠ []) : st'.flDepth ≤ 0 := by
  simp only [emitForLine] at h
  split_ifs at h <;> simp_all <;> omega

set_option maxHeartbeats 1000000 in
/-- Violations are only ever emitted on lines whose updated
`fl_namespace_depth` is zero or less: the guard
`if fl_namespace_depth > 0: continue` runs after the brace bookkeeping of
the line and before any pattern match. -/
theorem step_emit_flDepth (st : St) (line : Line) (h : (step st line).2 ≠ []) :
    (step st line).1.flDepth ≤ 0 := by
  simp only [step] at h ⊢
  split_ifs at h ⊢ <;> (try simp_all) <;>
    exact emitForLine_flDepth _ _ _ _ h

end Ctype

namespace BareUsing

/-- Popping `n` scopes removes `min n (length)` elements: the clamped pop
(`if scope_stack: scope_stack.pop()`) never underflows. -/
theorem popN_length (n : Nat) (s : List ScopeKind) :
    (popN n s).length = s.length - n := by
  induction n generalizing s with
  | zero => simp [popN]
  | succ k ih =>
    cases s with
    | nil => simp [popN]
    | cons a t =>
      rw [popN]
      rw [ih]
      simp only [List.length_dropLast, List.length_cons]
      omega

end BareUsing

/-- Looking up the key just assigned returns the assigned value. -/
theorem lookupPath_insertOrReplace (p : Line) (vs : List (Nat × Msg)) (m : VMap) :
    lookupPath p (insertOrReplace p vs m) = some vs := by
  induction m with
  | nil => simp [insertOrReplace, lookupPath]
  | cons e t ih =>
    rcases e with ⟨q, ws⟩
    by_cases hq : q == p
    · simp [insertOrReplace, lookupPath, hq]
    · simp [insertOrReplace, lookupPath, hq, ih]

/-- Re-assigning the same value to the same key is a no-op. -/
theorem insertOrReplace_idem (p : Line) (vs : List (Nat × Msg)) (m : VMap) :
    insertOrReplace p vs (insertOrReplace p vs m) = insertOrReplace p vs m := by
  induction m with
  | nil => simp [insertOrReplace]
  | cons e t ih =>
    rcases e with ⟨q, ws⟩
    by_cases hq : q == p
    · simp [insertOrReplace, hq]
    · simp [insertOrReplace, hq, ih]

namespace BareAlloc

/-- A run of lines containing no `*/`, entered with the in-block-comment
flag set, is skipped whole: no violations, flag still set. -/
theorem scan_in_comment_alloc (mid : List Line) (n : Nat)
    (h : ∀ l ∈ mid, containsSub l (chars "*/") = false) :
    scanGen step true n mid = [] ∧ stateAfter step true mid = true := by
  induction mid generalizing n with
  | nil => exact ⟨rfl, rfl⟩
  | cons l t ih =>
    have hstep := step_in_comment_alloc l (h l (by simp))
    have iht := ih (n + 1) (fun l' hl' => h l' (by simp [hl']))
    constructor
    · simp only [scanGen, hstep, stateAfter_cons]
      simpa using iht.1
    · simp only [stateAfter_cons, hstep]
      exact iht.2

end BareAlloc

namespace StdNs

/-- A run of lines containing no `*/`, entered with the in-block-comment
flag set, is skipped whole: no violations, flag still set. -/
theorem scan_in_comment_std (mid : List Line) (n : Nat)
    (h : ∀ l ∈ mid, containsSub l (chars "*/") = false) :
    scanGen step true n mid = [] ∧ stateAfter step true mid = true := by
  induction mid generalizing n with
  | nil => exact ⟨rfl, rfl⟩
  | cons l t ih =>
    have hstep := step_in_comment_std l (h l (by simp))
    have iht := ih (n + 1) (fun l' hl' => h l' (by simp [hl']))
    constructor
    · simp only [scanGen, hstep, stateAfter_cons]
      simpa using iht.1
    · simp only [stateAfter_cons, hstep]
      exact iht.2

end StdNs

namespace BareUsing

set_option maxHeartbeats 1000000 in
/-- On a plain code line (no comments, no preprocessor, no braces) carrying
a bare using declaration without suppression, the checker's decision is
exactly the scope predicate on the unchanged stack. -/
theorem step_plain (st : St) (line : Line)
    (h0 : st.inBlockComment = false)
    (h1 : containsSub (takeBeforeSub line (chars "//")) (chars "/*") = false)
    (h2 : matchPreproc line = false)
    (h3 : (stripStringsAndComments line).count '{' = 0)
    (h4 : (stripStringsAndComments line).count '}' = 0)
    (h5 : matchUsingDecl (stripStringsAndComments line) = true)
    (h6 : searchSuppress line = false) :
    step st line =
      (st, if st.scopeStack.all (fun k => k == ScopeKind.ns) then [pyStrip line] else []) := by
  obtain ⟨inB, stack⟩ := st
  simp only at h0
  subst h0
  simp only [step, h1, h2, h3, h4, h5, h6, scopePushes, popN, if_false, if_true,
    Bool.false_eq_true, List.append_nil, ite_true, ite_false]
  split_ifs <;> simp_all

end BareUsing

/-- Decomposition of a scan at a distinguished line. -/
theorem scan_cons_decomp {σ : Type} (step : σ → Line → σ × List Msg) (st : σ) (n : Nat)
    (pre : List Line) (x : Line) (post : List Line) :
    scanGen step st n (pre ++ x :: post) =
      scanGen step st n pre ++
        (((step (stateAfter step st pre) x).2.map fun m => (n + pre.length, m)) ++
          scanGen step (step (stateAfter step st pre) x).1 (n + pre.length + 1) post) := by
  rw [show pre ++ x :: post = pre ++ ([x] ++ post) from rfl, scanGen_append, scanGen_append]
  simp only [scanGen, stateAfter_cons, stateAfter_nil, List.length_cons, List.length_nil,
    List.append_nil, List.nil_append]

/-! ## The claims -/

set_option maxHeartbeats 1000000 in
/-- C1: the bare-using checker flags a bare using declaration exactly when
every entry on the scope stack (as updated by the line) is `Namespace`
(the empty stack counts), and never flags one when any `Local` entry is
present; concretely, `namespace fl { void f() { using X::Y; } }` over three
lines yields no violation while `namespace fl { using X::Y; }` yields
exactly one, at line 2. -/
theorem C1_scope_predicate :
    (∀ (st : BareUsing.St) (line : Line), (BareUsing.step st line).2 ≠ [] →
      ((BareUsing.step st line).1.scopeStack.all fun k => k == BareUsing.ScopeKind.ns) = true)
    ∧ (∀ stack : List BareUsing.ScopeKind,
        (BareUsing.step ⟨false, stack⟩ (chars "using X::Y;")).2 =
          if stack.all (fun k => k == BareUsing.ScopeKind.ns) then [chars "using X::Y;"]
          else [])
    ∧ BareUsing.scan [chars "namespace fl \x7b", chars "void f() \x7b using X::Y; \x7d", chars "\x7d"] = []
    ∧ (BareUsing.scan [chars "namespace fl \x7b", chars "using X::Y;", chars "\x7d"]).map Prod.fst
        = [2] := by
  refine ⟨BareUsing.step_emit_all_ns, ?_, by decide, by decide⟩
  intro stack
  have h := BareUsing.step_plain ⟨false, stack⟩ (chars "using X::Y;") rfl (by decide)
    (by decide) (by decide) (by decide) (by decide) (by decide)
  rw [h, show pyStrip (chars "using X::Y;") = chars "using X::Y;" from by decide]

/-- Witness for C1: at file scope (empty stack) the line `using X::Y;` is
flagged and the stack is all-namespace. -/
theorem C1_scope_predicate_witness :
    (BareUsing.step ⟨false, []⟩ (chars "using X::Y;")).2 ≠ [] ∧
      ((BareUsing.step ⟨false, []⟩ (chars "using X::Y;")).1.scopeStack.all
        fun k => k == BareUsing.ScopeKind.ns) = true :=
  ⟨by decide, C1_scope_predicate.1 ⟨false, []⟩ (chars "using X::Y;") (by decide)⟩

/-- C3 counterexample: in the ctype checker the brace-depth counter is
decremented without clamping; on the one-line file `}` it is `-1`,
negative, after the line. -/
theorem C3_counterexample_negative_depth :
    (Ctype.stAfter [chars "\x7d"]).braceDepth = -1 ∧
      (Ctype.stAfter [chars "\x7d"]).braceDepth < 0 := by
  exact ⟨by decide, by decide⟩

/-- C3 amended: the clamping holds in the scope-stack variant of the
bare-using checker: popping `n` scopes removes exactly `min n length`
entries (truncated subtraction — a pop on an empty stack is ignored), so
the stack-based depth is non-negative after every scan; the ctype
checker's integer counter (see the counterexample) is not clamped. -/
theorem C3_amended_clamped_pop :
    (∀ (n : Nat) (s : List BareUsing.ScopeKind),
      (BareUsing.popN n s).length = s.length - n)
    ∧ (∀ lines : List Line,
        0 ≤ ((stateAfter BareUsing.step BareUsing.initSt lines).scopeStack.length : Int)) :=
  ⟨BareUsing.popN_length, fun _ => Int.natCast_nonneg _⟩

set_option maxHeartbeats 1000000 in
/-- C6: the ctype checker opens a `namespace fl` scope by pushing the
current brace depth and closes it only when the depth returns to that
snapshot, so no violation is emitted for a line after which the tracked
`fl_namespace_depth` is still positive; the nested file
`namespace fl { namespace other { } strlen(x); }` (five lines) yields no
violation, and the inner `}` does not close `namespace fl` (depth still 1). -/
theorem C6_namespace_fl_depth :
    (∀ (pre : List Line) (l : Line) (post : List Line),
      0 < (Ctype.stAfter (pre ++ [l])).flDepth →
      (Ctype.scan (pre ++ l :: post)).filter (fun v => decide (v.1 = pre.length + 1)) = [])
    ∧ Ctype.scan [chars "namespace fl \x7b", chars "namespace other \x7b", chars "\x7d",
        chars "strlen(x);", chars "\x7d"] = []
    ∧ (Ctype.stAfter [chars "namespace fl \x7b", chars "namespace other \x7b",
        chars "\x7d"]).flDepth = 1 := by
  refine ⟨?_, by decide, by decide⟩
  intro pre l post h
  have hsplit : pre ++ l :: post = (pre ++ [l]) ++ post := by simp
  rw [Ctype.scan, hsplit, scanGen_append, scanGen_append]
  rw [Ctype.stAfter, stateAfter_append, stateAfter_cons, stateAfter_nil] at h
  have hmid : (Ctype.step (stateAfter Ctype.step Ctype.initSt pre) l).2 = [] := by
    by_contra hne
    have := Ctype.step_emit_flDepth (stateAfter Ctype.step Ctype.initSt pre) l hne
    omega
  simp only [List.filter_append, scanGen, hmid, List.map_nil, List.nil_append,
    List.filter_nil, List.append_nil]
  have hpre : (scanGen Ctype.step Ctype.initSt 1 pre).filter
      (fun v => decide (v.1 = pre.length + 1)) = [] := by
    apply List.filter_eq_nil_iff.mpr
    intro v hv
    have := scanGen_fst_bounds Ctype.step Ctype.initSt 1 pre v hv
    simp only [decide_eq_true_eq]
    omega
  rw [hpre]
  simp only [List.nil_append]
  apply List.filter_eq_nil_iff.mpr
  intro v hv
  have hb := scanGen_fst_bounds Ctype.step _ _ post v hv
  simp only [decide_eq_true_eq]
  simp only [List.length_append, List.length_cons, List.length_nil] at hb
  omega

/-- Witness for C6: inside `namespace fl {` … `}` the line `strlen(x);`
(line 2) produces no violation. -/
theorem C6_namespace_fl_depth_witness :
    0 < (Ctype.stAfter ([chars "namespace fl \x7b"] ++ [chars "strlen(x);"])).flDepth ∧
      (Ctype.scan ([chars "namespace fl \x7b"] ++ chars "strlen(x);" :: [chars "\x7d"])).filter
        (fun v => decide (v.1 = [chars "namespace fl \x7b"].length + 1)) = [] :=
  ⟨by decide,
    C6_namespace_fl_depth.1 [chars "namespace fl \x7b"] (chars "strlen(x);") [chars "\x7d"]
      (by decide)⟩

/-- C7 counterexample: on the single line `strlen(a); memcpy(b, c, 5);`
the ctype checker emits two violations for the one line, not at most one. -/
theorem C7_counterexample_two_per_line :
    ((Ctype.scan [chars "strlen(a); memcpy(b, c, 5);"]).filter
      fun v => decide (v.1 = 1)).length = 2 := by
  decide

/-- C7 amended: the bare-allocation, bare-using and std-namespace rules
emit at most one violation per line; the ctype rule can emit one per
distinct banned function on the line (two on
`strlen(a); memcpy(b, c, 5);`). -/
theorem C7_amended_per_line :
    (∀ (lines : List Line) (n : Nat),
      ((BareAlloc.scan lines).filter fun v => decide (v.1 = n)).length ≤ 1)
    ∧ (∀ (lines : List Line) (n : Nat),
      ((BareUsing.scan lines).filter fun v => decide (v.1 = n)).length ≤ 1)
    ∧ (∀ (lines : List Line) (n : Nat),
      ((StdNs.scan lines).filter fun v => decide (v.1 = n)).length ≤ 1)
    ∧ (Ctype.scan [chars "strlen(a); memcpy(b, c, 5);"]).map Prod.fst = [1, 1] := by
  refine ⟨?_, ?_, ?_, by decide⟩ <;> intro lines n
  · exact pairwise_filter_len_le_one _
      (scanGen_pairwise_lt _ BareAlloc.step_len_le_one_alloc _ _ _) n
  · exact pairwise_filter_len_le_one _
      (scanGen_pairwise_lt _ BareUsing.step_len_le_one_using _ _ _) n
  · exact pairwise_filter_len_le_one _
      (scanGen_pairwise_lt _ StdNs.step_len_le_one_std _ _ _) n

/-- C4 counterexample: in the file `/* a */ x /*` · `new Foo();` · `*/`
the second line lies strictly inside a correctly terminated block comment
(the reference scanner is inside a block before and after line 2, and the
block closes at line 3), yet the bare-allocation checker reports a
violation at line 2 — its flag tracking clears the flag on any line
containing `*/`, even when a later `/*` on the same line reopens a block. -/
theorem C4_counterexample_comment_line_flagged :
    SpecComment.stateAfterLines [chars "/* a */ x /*"] = true ∧
      SpecComment.lineState true (chars "new Foo();") = true ∧
      SpecComment.stateAfterLines
        [chars "/* a */ x /*", chars "new Foo();", chars "*/"] = false ∧
      (BareAlloc.scan [chars "/* a */ x /*", chars "new Foo();", chars "*/"]).map Prod.fst
        = [2] := by
  exact ⟨by decide, by decide, by decide, by decide⟩

/-- C4 amended: once a checker's in-block-comment flag is set (in
particular after an opener line containing `/*` and no `*/`), every
following line up to the first line containing `*/` produces no violation;
shown for the bare-allocation and std-namespace checkers, whose
comment-flag handling the other checkers repeat. -/
theorem C4_amended_no_violation_while_flag_set :
    (∀ (pre mid post : List Line),
      stateAfter BareAlloc.step false pre = true →
      (∀ l ∈ mid, containsSub l (chars "*/") = false) →
      (BareAlloc.scan (pre ++ mid ++ post)).filter
        (fun v => decide (pre.length < v.1 ∧ v.1 ≤ pre.length + mid.length)) = [])
    ∧ (∀ (pre mid post : List Line),
      stateAfter StdNs.step false pre = true →
      (∀ l ∈ mid, containsSub l (chars "*/") = false) →
      (StdNs.scan (pre ++ mid ++ post)).filter
        (fun v => decide (pre.length < v.1 ∧ v.1 ≤ pre.length + mid.length)) = []) := by
  constructor
  · intro pre mid post hpre hmid
    rw [BareAlloc.scan, scanGen_append, scanGen_append, hpre]
    obtain ⟨hm1, hm2⟩ := BareAlloc.scan_in_comment_alloc mid (1 + pre.length) hmid
    rw [hm1]
    simp only [List.filter_append, List.filter_nil, List.nil_append, List.append_nil,
      List.append_eq_nil, List.filter_eq_nil_iff]
    constructor
    · intro v hv
      have hb := scanGen_fst_bounds _ _ _ pre v hv
      simp only [decide_eq_true_eq, not_and]
      omega
    · intro v hv
      have hb := scanGen_fst_bounds _ _ _ post v hv
      simp only [List.length_append] at hb
      simp only [decide_eq_true_eq, not_and]
      omega
  · intro pre mid post hpre hmid
    rw [StdNs.scan, scanGen_append, scanGen_append, hpre]
    obtain ⟨hm1, hm2⟩ := StdNs.scan_in_comment_std mid (1 + pre.length) hmid
    rw [hm1]
    simp only [List.filter_append, List.filter_nil, List.nil_append, List.append_nil,
      List.append_eq_nil, List.filter_eq_nil_iff]
    constructor
    · intro v hv
      have hb := scanGen_fst_bounds _ _ _ pre v hv
      simp only [decide_eq_true_eq, not_and]
      omega
    · intro v hv
      have hb := scanGen_fst_bounds _ _ _ post v hv
      simp only [List.length_append] at hb
      simp only [decide_eq_true_eq, not_and]
      omega

/-- Witness for C4 amended: after an opener `/*`, the line `new Foo();`
(for the allocation rule) and `std::foo();` (for the std rule) inside the
comment produce no violation. -/
theorem C4_amended_no_violation_while_flag_set_witness :
    ((BareAlloc.scan ([chars "/*"] ++ [chars "new Foo();"] ++ [chars "*/"])).filter
      (fun v => decide ([chars "/*"].length < v.1 ∧
        v.1 ≤ [chars "/*"].length + [chars "new Foo();"].length)) = []) ∧
    ((StdNs.scan ([chars "/*"] ++ [chars "std::foo();"] ++ [chars "*/"])).filter
      (fun v => decide ([chars "/*"].length < v.1 ∧
        v.1 ≤ [chars "/*"].length + [chars "std::foo();"].length)) = []) :=
  ⟨C4_amended_no_violation_while_flag_set.1 [chars "/*"] [chars "new Foo();"] [chars "*/"]
      (by decide) (by decide),
    C4_amended_no_violation_while_flag_set.2 [chars "/*"] [chars "std::foo();"] [chars "*/"]
      (by decide) (by decide)⟩

/-- C5 counterexample: a line holding code before an unclosed `/*` is
skipped whole, not truncated: `new Foo(); /* note` produces no violation
although `new Foo();` alone does; likewise the brace of
`void f() { /* c` is not tracked, so the later `using X::Y;` is flagged at
namespace scope although it sits inside the function body. -/
theorem C5_counterexample_whole_line_skipped :
    BareAlloc.scan [chars "new Foo(); /* note", chars "*/"] = [] ∧
      (BareAlloc.scan [chars "new Foo();"]).map Prod.fst = [1] ∧
      (BareUsing.scan [chars "void f() \x7b /* c", chars "*/", chars "using X::Y;",
        chars "\x7d"]).map Prod.fst = [3] := by
  exact ⟨by decide, by decide, by decide⟩

/-- C5 amended: when a line contains an unclosed block-comment opener (for
the bare-using checker: a `/*` before any `//` with no `*/` after it; for
the bare-allocation checker: `/*` anywhere and no `*/`), the checker sets
the in-block-comment flag but skips the whole line — the code before the
`/*` takes part in neither pattern matching nor scope tracking. -/
theorem C5_amended_flag_set_line_skipped :
    (∀ (st : BareUsing.St) (line : Line),
      st.inBlockComment = false →
      containsSub (takeBeforeSub line (chars "//")) (chars "/*") = true →
      containsSub (line.drop (idxOfSub (takeBeforeSub line (chars "//")) (chars "/*") + 2))
        (chars "*/") = false →
      BareUsing.step st line = ({ st with inBlockComment := true }, []))
    ∧ (∀ (st : Bool) (line : Line),
      containsSub line (chars "/*") = true →
      containsSub line (chars "*/") = false →
      BareAlloc.step st line = (true, [])) := by
  constructor
  · intro st line h0 h1 h2
    simp [BareUsing.step, h0, h1, h2]
  · intro st line h1 h2
    simp [BareAlloc.step, h1, h2]

/-- Witness for C5 amended: concrete opener lines with code before the
`/*` are skipped with the flag set. -/
theorem C5_amended_flag_set_line_skipped_witness :
    BareUsing.step ⟨false, []⟩ (chars "void f() \x7b /* c") = (⟨true, []⟩, []) ∧
      BareAlloc.step false (chars "new Foo(); /* note") = (true, []) :=
  ⟨C5_amended_flag_set_line_skipped.1 ⟨false, []⟩ (chars "void f() \x7b /* c") rfl
      (by decide) (by decide),
    C5_amended_flag_set_line_skipped.2 false (chars "new Foo(); /* note")
      (by decide) (by decide)⟩

namespace BareAlloc

/-- Appending the suppression marker to a line leaves the outgoing comment
state unchanged (the marker contains no `/*` or `*/` and cannot complete
one across the boundary), so every other line of the file is processed
identically. -/
theorem marker_preserves_state (st : Bool) (l : Line) :
    (step st (l ++ chars " // ok bare allocation")).1 = (step st l).1 := by
  rw [step_fst_eq, step_fst_eq]
  have e1 : (chars "*/") = ['*', '/'] := rfl
  have e2 : (chars "/*") = ['/', '*'] := rfl
  have hc1 : containsSub (l ++ chars " // ok bare allocation") ['*', '/'] =
      containsSub l ['*', '/'] := by
    refine containsSub_append_two l _ '*' '/' (by decide) ?_
    intro c hc
    have : c = ' ' := by
      have he : (chars " // ok bare allocation").head? = some ' ' := rfl
      rw [he] at hc
      exact (Option.some_inj.mp hc).symm
    subst this
    decide
  have hc2 : containsSub (l ++ chars " // ok bare allocation") ['/', '*'] =
      containsSub l ['/', '*'] := by
    refine containsSub_append_two l _ '/' '*' (by decide) ?_
    intro c hc
    have : c = ' ' := by
      have he : (chars " // ok bare allocation").head? = some ' ' := rfl
      rw [he] at hc
      exact (Option.some_inj.mp hc).symm
    subst this
    decide
  rw [e1, e2, hc1, hc2]

end BareAlloc

/-- C2 counterexample: the std-namespace rule is not suppressed by the
`// ok std namespace` form of the marker: the line
`std::foo(); // ok std namespace` contains that literal marker, yet one
violation is reported for it. -/
theorem C2_counterexample_ok_marker_ignored :
    containsSub (chars "std::foo(); // ok std namespace")
        (chars "// ok std namespace") = true ∧
      (StdNs.scan [chars "std::foo(); // ok std namespace"]).map Prod.fst = [1] := by
  exact ⟨by decide, by decide⟩

set_option maxHeartbeats 1000000 in
/-- C2 amended: the bare-allocation rule is suppressed by both literal
markers; the std-namespace rule only by `// okay std namespace`; the
bare-using rule by both of its markers (shown on its flagging line); and a
marker is line-local: appending `// ok bare allocation` to any line of any
file removes exactly that line's violation and leaves every other line's
violations unchanged. -/
theorem C2_amended_suppression_markers :
    (∀ (st : Bool) (line : Line),
      containsSub line BareAlloc.okMarker = true ∨
        containsSub line BareAlloc.okayMarker = true →
      (BareAlloc.step st line).2 = [])
    ∧ (∀ (st : Bool) (line : Line),
      containsSub line (chars "// okay std namespace") = true →
      (StdNs.step st line).2 = [])
    ∧ BareUsing.scan [chars "using X::Y;  // ok bare using"] = []
    ∧ BareUsing.scan [chars "using X::Y;  // okay bare using"] = []
    ∧ (∀ (pre : List Line) (l : Line) (post : List Line),
      ((BareAlloc.scan (pre ++ (l ++ chars " // ok bare allocation") :: post)).filter
        (fun v => decide (v.1 = pre.length + 1)) = []) ∧
      (BareAlloc.scan (pre ++ (l ++ chars " // ok bare allocation") :: post)).filter
          (fun v => !decide (v.1 = pre.length + 1)) =
        (BareAlloc.scan (pre ++ l :: post)).filter
          (fun v => !decide (v.1 = pre.length + 1))) := by
  refine ⟨BareAlloc.step_marker_silences_alloc, StdNs.step_marker_silences_std, by decide, by decide, ?_⟩
  intro pre l post
  have hj : 1 + pre.length = pre.length + 1 := by omega
  have hsil : (BareAlloc.step (stateAfter BareAlloc.step false pre)
      (l ++ chars " // ok bare allocation")).2 = [] :=
    BareAlloc.step_marker_silences_alloc _ _
      (Or.inl (containsSub_append_right l _ _ (by decide)))
  have hst := BareAlloc.marker_preserves_state (stateAfter BareAlloc.step false pre) l
  constructor
  · simp only [BareAlloc.scan, scan_cons_decomp, hsil, List.map_nil, List.nil_append,
      List.filter_append, List.append_eq_nil, List.filter_eq_nil_iff]
    constructor
    · intro v hv
      have hb := scanGen_fst_bounds _ _ _ pre v hv
      simp only [decide_eq_true_eq]
      omega
    · intro v hv
      have hb := scanGen_fst_bounds _ _ _ post v hv
      simp only [decide_eq_true_eq]
      omega
  · simp only [BareAlloc.scan, scan_cons_decomp, hsil, hst, hj, List.map_nil,
      List.nil_append, List.filter_append]
    congr 1
    have : (((BareAlloc.step (stateAfter BareAlloc.step false pre) l).2.map
        fun m => (pre.length + 1, m)).filter
          (fun v => !decide (v.1 = pre.length + 1))) = [] := by
      apply List.filter_eq_nil_iff.mpr
      intro v hv
      rcases List.mem_map.mp hv with ⟨m, _, rfl⟩
      simp
    rw [this, List.nil_append]

/-- Witness for C2 amended: concrete suppressed lines for each rule, and
the locality statement at a concrete file. -/
theorem C2_amended_suppression_markers_witness :
    (BareAlloc.step false (chars "new Foo(); // ok bare allocation")).2 = [] ∧
      (StdNs.step false (chars "std::foo(); // okay std namespace")).2 = [] ∧
      ((BareAlloc.scan ([chars "delete p;"] ++
          (chars "new Foo();" ++ chars " // ok bare allocation") :: [chars "free(p);"])).filter
        (fun v => decide (v.1 = [chars "delete p;"].length + 1)) = []) :=
  ⟨C2_amended_suppression_markers.1 false (chars "new Foo(); // ok bare allocation")
      (Or.inl (by decide)),
    C2_amended_suppression_markers.2.1 false (chars "std::foo(); // okay std namespace")
      (by decide),
    (C2_amended_suppression_markers.2.2.2.2 [chars "delete p;"] (chars "new Foo();")
      [chars "free(p);"]).1⟩

/-- C8: a file none of whose processed lines fires a checker's banned
pattern yields an empty violation list and leaves the violations mapping
untouched (the path stays absent); when violations are produced, the
per-file list is strictly ordered by line number.  Shown for the
bare-allocation and bare-using checkers. -/
theorem C8_empty_scan_and_order :
    (∀ (fc : FileContent) (m : VMap),
      (∀ l ∈ fc.lines,
        BareAlloc.searchNewAlloc (BareAlloc.stripLits (takeBeforeSub l (chars "//"))) = false ∧
        BareAlloc.searchDeleteKw (BareAlloc.stripLits (takeBeforeSub l (chars "//"))) = false ∧
        BareAlloc.searchMallocFamily (BareAlloc.stripLits (takeBeforeSub l (chars "//"))) = none ∧
        BareAlloc.searchFree (BareAlloc.stripLits (takeBeforeSub l (chars "//"))) = false) →
      BareAlloc.scan fc.lines = [] ∧ BareAlloc.check_file_content m fc = m)
    ∧ (∀ (fc : FileContent) (m : VMap),
      (∀ l ∈ fc.lines,
        BareUsing.matchUsingDecl (BareUsing.stripStringsAndComments l) = false) →
      BareUsing.scan fc.lines = [] ∧ BareUsing.check_file_content m fc = m)
    ∧ (∀ lines : List Line, (BareAlloc.scan lines).Pairwise (fun a b => a.1 < b.1))
    ∧ (∀ lines : List Line, (BareUsing.scan lines).Pairwise (fun a b => a.1 < b.1)) := by
  refine ⟨?_, ?_, ?_, ?_⟩
  · intro fc m h
    have hscan : BareAlloc.scan fc.lines = [] := by
      apply scanGen_eq_nil
      intro l hl s
      obtain ⟨h1, h2, h3, h4⟩ := h l hl
      exact BareAlloc.step_no_pattern s l h1 h2 h3 h4
    exact ⟨hscan, by simp [BareAlloc.check_file_content, updateViolations, hscan]⟩
  · intro fc m h
    have hscan : BareUsing.scan fc.lines = [] := by
      apply scanGen_eq_nil
      intro l hl s
      exact BareUsing.step_no_match s l (h l hl)
    exact ⟨hscan, by simp [BareUsing.check_file_content, updateViolations, hscan]⟩
  · intro lines
    exact scanGen_pairwise_lt _ BareAlloc.step_len_le_one_alloc _ _ _
  · intro lines
    exact scanGen_pairwise_lt _ BareUsing.step_len_le_one_using _ _ _

/-- Witness for C8: a pattern-free file leaves an empty mapping empty for
both checkers. -/
theorem C8_empty_scan_and_order_witness :
    (BareAlloc.scan [chars "int x;"] = [] ∧
      BareAlloc.check_file_content [] ⟨chars "a.cpp", [chars "int x;"]⟩ = []) ∧
    (BareUsing.scan [chars "int x;"] = [] ∧
      BareUsing.check_file_content [] ⟨chars "a.h", [chars "int x;"]⟩ = []) :=
  ⟨C8_empty_scan_and_order.1 ⟨chars "a.cpp", [chars "int x;"]⟩ []
      (by intro l hl; simp at hl; subst hl; exact ⟨by decide, by decide, by decide, by decide⟩),
    C8_empty_scan_and_order.2.1 ⟨chars "a.h", [chars "int x;"]⟩ []
      (by intro l hl; simp at hl; subst hl; decide)⟩

/-- C9: a checker's scan is deterministic and idempotent: re-running
`check_file_content` on the same unchanged content reproduces the same
violations mapping (shown for the bare-allocation and std-namespace
checkers), and the stored per-file list is a function of the file's lines
alone, independent of whatever earlier scans put in the mapping. -/
theorem C9_scan_idempotent :
    (∀ (m : VMap) (fc : FileContent),
      BareAlloc.check_file_content (BareAlloc.check_file_content m fc) fc =
        BareAlloc.check_file_content m fc)
    ∧ (∀ (m : VMap) (fc : FileContent),
      StdNs.check_file_content (StdNs.check_file_content m fc) fc =
        StdNs.check_file_content m fc)
    ∧ (∀ (m : VMap) (fc : FileContent),
      BareAlloc.scan fc.lines ≠ [] →
      lookupPath fc.path (BareAlloc.check_file_content m fc) =
        some (BareAlloc.scan fc.lines)) := by
  refine ⟨?_, ?_, ?_⟩
  · intro m fc
    by_cases h : (BareAlloc.scan fc.lines).isEmpty
    · simp [BareAlloc.check_file_content, updateViolations, h]
    · simp [BareAlloc.check_file_content, updateViolations, h, insertOrReplace_idem]
  · intro m fc
    by_cases h : (StdNs.scan fc.lines).isEmpty
    · simp [StdNs.check_file_content, updateViolations, h]
    · simp [StdNs.check_file_content, updateViolations, h, insertOrReplace_idem]
  · intro m fc h
    have h' : (BareAlloc.scan fc.lines).isEmpty = false := by
      simpa [List.isEmpty_iff] using h
    simp [BareAlloc.check_file_content, updateViolations, h', lookupPath_insertOrReplace]

/-- Witness for C9: for a file with one `new`, the stored list equals the
recomputed scan regardless of the prior mapping. -/
theorem C9_scan_idempotent_witness :
    lookupPath (chars "a.cpp")
        (BareAlloc.check_file_content [] ⟨chars "a.cpp", [chars "new Foo();"]⟩) =
      some (BareAlloc.scan [chars "new Foo();"]) :=
  C9_scan_idempotent.2.2 [] ⟨chars "a.cpp", [chars "new Foo();"]⟩ (by decide)

/-- C10: `should_process_file` of the bare-using checker accepts a path
only when its separator-normalized form contains `/src/fl/` with the
leading slash; a relative path beginning `src/fl/` (with no other
occurrence) is rejected, and — per the spec's description of the
file-discovery harness — such a file is never scanned, leaving the
violations mapping unchanged. -/
theorem C10_relative_src_fl_rejected :
    ∀ p : Line, (chars "src/fl/").isPrefixOf p = true →
      containsSub (BareUsing.normalizePath p) (chars "/src/fl/") = false →
      BareUsing.should_process_file p = false ∧
        ∀ (m : VMap) (lines : List Line),
          BareUsing.processFileIfAccepted m ⟨p, lines⟩ = m := by
  intro p hpre hnc
  have h1 : BareUsing.should_process_file p = false := by
    simp [BareUsing.should_process_file, hnc]
  exact ⟨h1, fun m lines => by simp [BareUsing.processFileIfAccepted, h1]⟩

/-- Witness for C10: the relative path `src/fl/audio.h` is rejected and a
file of bare using declarations under it contributes nothing. -/
theorem C10_relative_src_fl_rejected_witness :
    BareUsing.should_process_file (chars "src/fl/audio.h") = false ∧
      BareUsing.processFileIfAccepted []
        ⟨chars "src/fl/audio.h", [chars "using X::Y;"]⟩ = [] :=
  ⟨(C10_relative_src_fl_rejected (chars "src/fl/audio.h") (by decide) (by decide)).1,
    (C10_relative_src_fl_rejected (chars "src/fl/audio.h") (by decide) (by decide)).2
      [] [chars "using X::Y;"]⟩
